import Mathlib

/-!
Verification development for the HQP task layer (`hqp/tasks.py`).

The Python module is shallowly embedded: numpy 1-D arrays (and single-column
matrices) become `List ℝ`, numpy 2-D matrices become lists of rows, boolean
masks become `List Bool`, and the external collaborators (the pinocchio
rigid-body dynamics engine, the reference trajectories, and the auxiliary
math library `biomechanics.maths`) become explicit function parameters or
record fields, since the spec declares them out of scope and only their call
contracts are relied upon.  Boolean-mask row selection follows the numpy
semantics the code relies on: a mask shorter than the indexed axis selects
among the leading entries (`List.zip` truncates exactly like the legacy
numpy behaviour used by `FreeFlyerTask`).  Python `assert` failures are
modelled by `Option`-valued constructors/setters returning `none`.
-/

namespace HQP

noncomputable section

/-- Real vector, the embedding of a numpy 1-D array / single-column matrix. -/
abbrev RVec := List ℝ

/-- Matrix as a list of rows, the embedding of a numpy 2-D matrix. -/
abbrev RMat := List RVec

/-- Row selection by a boolean mask, `a[mask]` / `A[mask,:]`.  `List.zip`
truncates to the shorter argument, matching the legacy numpy behaviour of a
boolean index shorter than the indexed axis (used on `eye(nv)` with a
length-6 mask in `FreeFlyerTask`). -/
def applyMask {α : Type} (mask : List Bool) (xs : List α) : List α :=
  ((mask.zip xs).filter (fun p => p.1)).map (fun p => p.2)

/-- Number of `true` entries of a mask, the embedding of `mask.sum()`
(the `dim` property of the tasks). -/
def countTrue (mask : List Bool) : ℕ := mask.count true

/-- Elementwise sum of two numpy arrays. -/
def vadd (a b : RVec) : RVec := List.zipWith (· + ·) a b

/-- Elementwise difference of two numpy arrays. -/
def vsub (a b : RVec) : RVec := List.zipWith (· - ·) a b

/-- Scalar times numpy array. -/
def smulV (c : ℝ) (a : RVec) : RVec := a.map (fun x => c * x)

/-- Elementwise negation, `-a`. -/
def vneg (a : RVec) : RVec := a.map (fun x => -x)

/-- Row times a diagonal matrix `np.diag(g)`: the `i`-th entry is scaled by
`g i`.  The gain matrices of the tasks are always diagonal (`np.eye` at
construction, `np.diag(gain_vector)` in `setGain`), so they are embedded by
their diagonal. -/
def rowTimesDiag (r g : RVec) : RVec := List.zipWith (· * ·) r g

/-- Euclidean norm of a numpy array, `np.linalg.norm`. -/
def npNorm (xs : RVec) : ℝ := Real.sqrt ((xs.map (fun x => x ^ 2)).sum)

/-- Embedding of `exponentialDecay(kp)` from `tasks.py`: the critically damped derivative
gain `kv = 2*np.sqrt(kp)`. -/
def exponentialDecay (kp : ℝ) : ℝ := 2 * Real.sqrt kp

/-- Embedding of `exponentialGrowth(kp)` from `tasks.py`. -/
def exponentialGrowth (kp : ℝ) : ℝ := 1 / 2 * Real.sqrt kp

/-- Embedding of `adaptativeGain(p_error, kmin, kmax, beta)` from `tasks.py`:
`kp = (kmin - kmax)*np.exp(-beta*np.linalg.norm(p_error)) + kmax`. -/
def adaptativeGain (p_error : RVec) (kmin kmax beta : ℝ) : ℝ :=
  (kmin - kmax) * Real.exp (-beta * npNorm p_error) + kmax

/-- Claim C7: for every non-negative `kp` the exponential-decay gain function
returns `kv = 2*sqrt(kp)`, it is monotonically increasing in `kp`, and the
returned `kv` satisfies `kv^2 = 4*kp` exactly. -/
theorem c7_exponentialDecay_spec :
    (∀ kp : ℝ, exponentialDecay kp = 2 * Real.sqrt kp)
    ∧ (∀ kp : ℝ, 0 ≤ kp → exponentialDecay kp ^ 2 = 4 * kp)
    ∧ (∀ a b : ℝ, 0 ≤ a → a ≤ b → exponentialDecay a ≤ exponentialDecay b) := by
  refine ⟨fun _ => rfl, fun kp h => ?_, fun a b _ hab => ?_⟩
  · rw [exponentialDecay, mul_pow, Real.sq_sqrt h]; ring
  · exact mul_le_mul_of_nonneg_left (Real.sqrt_le_sqrt hab) (by norm_num)

/-- Witness for C7 at the concrete gain `kp = 1` (and the pair `0 ≤ 1`). -/
theorem c7_exponentialDecay_spec_witness :
    exponentialDecay 1 ^ 2 = 4 * 1 ∧ exponentialDecay 0 ≤ exponentialDecay 1 :=
  ⟨c7_exponentialDecay_spec.2.1 1 zero_le_one,
   c7_exponentialDecay_spec.2.2 0 1 le_rfl zero_le_one⟩

/-- Claim C6: the adaptive gain function returns
`kp = (kmin - kmax)*exp(-beta*norm(error)) + kmax`; it equals `kmin` on the
zero error vector (of any dimension, with no division anywhere), and it tends
to `kmax` as the error norm grows without bound, for `kmin ≤ kmax` and
`beta > 0`. -/
theorem c6_adaptativeGain_spec (kmin kmax beta : ℝ) (hbeta : 0 < beta)
    (hk : kmin ≤ kmax) :
    (∀ e : RVec, adaptativeGain e kmin kmax beta
        = (kmin - kmax) * Real.exp (-(beta * npNorm e)) + kmax)
    ∧ (∀ n : ℕ, adaptativeGain (List.replicate n 0) kmin kmax beta = kmin)
    ∧ Filter.Tendsto (fun e : RVec => adaptativeGain e kmin kmax beta)
        (Filter.comap npNorm Filter.atTop) (nhds kmax) := by
  clear hk
  refine ⟨fun e => by rw [adaptativeGain, neg_mul], fun n => ?_, ?_⟩
  · have hnorm : npNorm (List.replicate n 0) = 0 := by
      simp [npNorm, List.map_replicate]
    rw [adaptativeGain, hnorm, mul_zero, Real.exp_zero, mul_one, sub_add_cancel]
  · have h1 : Filter.Tendsto npNorm (Filter.comap npNorm Filter.atTop)
        Filter.atTop := Filter.tendsto_comap
    have h2 : Filter.Tendsto (fun r : ℝ => -beta * r) Filter.atTop
        Filter.atBot := by
      have hb : Filter.Tendsto (fun r : ℝ => beta * r) Filter.atTop
          Filter.atTop := Filter.Tendsto.const_mul_atTop hbeta Filter.tendsto_id
      have hfun : (fun r : ℝ => -beta * r) = fun r : ℝ => -(beta * r) := by
        funext r; ring
      rw [hfun]
      exact Filter.tendsto_neg_atBot_iff.mpr hb
    have h3 := Real.tendsto_exp_atBot.comp (h2.comp h1)
    have h4 := (h3.const_mul (kmin - kmax)).add_const kmax
    simpa [adaptativeGain, Function.comp] using h4

/-- Witness for C6 at `kmin = 0`, `kmax = 1`, `beta = 1` and the
three-dimensional zero error vector. -/
theorem c6_adaptativeGain_spec_witness :
    adaptativeGain (List.replicate 3 0) 0 1 1 = 0 :=
  (c6_adaptativeGain_spec 0 1 1 one_pos zero_le_one).2.1 3

/-! ## Geometry: the rigid-motion group and spatial vectors

`pinocchio.SE3` is an external collaborator; its data model (a rotation
matrix and a translation vector) and its group operations are embedded
concretely, while its logarithmic map `se3.log` (a transcendental function
of the rotation) stays an explicit function parameter `selog` whose only
assumed contract, where a claim needs it, is that the log of the identity
placement is the zero motion. -/

/-- Element of the rigid-motion group as pinocchio stores it: a rotation
matrix and a translation vector. -/
structure SE3R where
  rotation : Matrix (Fin 3) (Fin 3) ℝ
  translation : Fin 3 → ℝ

/-- The identity placement `SE3.Identity()`. -/
def SE3R.identity : SE3R := ⟨1, 0⟩

/-- Group composition `M1 * M2 = (R1*R2, R1*p2 + p1)`. -/
def SE3R.mul (A B : SE3R) : SE3R :=
  ⟨A.rotation * B.rotation, A.rotation.mulVec B.translation + A.translation⟩

/-- Inversion `SE3.inverse()`: `(R, p)⁻¹ = (Rᵀ, -Rᵀ p)`. -/
def SE3R.inverse (M : SE3R) : SE3R :=
  ⟨M.rotation.transpose, -(M.rotation.transpose.mulVec M.translation)⟩

/-- A valid pose carries an orthogonal rotation matrix. -/
def isValidRotation (R : Matrix (Fin 3) (Fin 3) ℝ) : Prop :=
  R.transpose * R = 1

/-- Cross product `np.cross` on 3-vectors. -/
def npCross (a b : Fin 3 → ℝ) : Fin 3 → ℝ :=
  ![a 1 * b 2 - a 2 * b 1, a 2 * b 0 - a 0 * b 2, a 0 * b 1 - a 1 * b 0]

/-- Spatial velocity (pinocchio `Motion`): linear and angular parts. -/
structure Motion where
  linear : Fin 3 → ℝ
  angular : Fin 3 → ℝ

/-- The zero motion `Motion.Zero()`. -/
def Motion.zero : Motion := ⟨0, 0⟩

/-- Flattening `motion.vector`: the 6-vector `[linear; angular]`. -/
def Motion.vector (m : Motion) : RVec :=
  [m.linear 0, m.linear 1, m.linear 2, m.angular 0, m.angular 1, m.angular 2]

/-- The same 6-vector as a function on `Fin 6` (used where pinocchio
multiplies a motion by a 6x6 inertia matrix). -/
def Motion.vec6 (m : Motion) : Fin 6 → ℝ := fun i =>
  if h : (i : ℕ) < 3 then m.linear ⟨i, h⟩
  else m.angular ⟨(i : ℕ) - 3, by omega⟩

/-- Elementwise difference of motions (`v - w`). -/
def Motion.sub (a b : Motion) : Motion :=
  ⟨a.linear - b.linear, a.angular - b.angular⟩

/-- Action `M.actInv(v)` for a motion: `(Rᵀ(lin - p × ang), Rᵀ ang)`. -/
def SE3R.actInvMotion (M : SE3R) (v : Motion) : Motion :=
  ⟨M.rotation.transpose.mulVec (v.linear - npCross M.translation v.angular),
   M.rotation.transpose.mulVec v.angular⟩

/-- Action `M.act(v)` for a motion: `(R lin + p × (R ang), R ang)`. -/
def SE3R.actMotion (M : SE3R) (v : Motion) : Motion :=
  ⟨M.rotation.mulVec v.linear + npCross M.translation (M.rotation.mulVec v.angular),
   M.rotation.mulVec v.angular⟩

/-- Spatial force (pinocchio `Force`): linear force and angular torque. -/
structure Force where
  linear : Fin 3 → ℝ
  angular : Fin 3 → ℝ

/-- Elementwise sum of forces. -/
def Force.add (f g : Force) : Force :=
  ⟨f.linear + g.linear, f.angular + g.angular⟩

/-- Flattening `force.np` / `force.vector`: the 6-vector `[linear; angular]`. -/
def Force.vector (f : Force) : RVec :=
  [f.linear 0, f.linear 1, f.linear 2, f.angular 0, f.angular 1, f.angular 2]

/-- Build a `Force` from a 6-entry function `[linear; angular]`. -/
def Force.ofVec6 (x : Fin 6 → ℝ) : Force :=
  ⟨![x 0, x 1, x 2], ![x 3, x 4, x 5]⟩

/-- Build a `Force` from the leading six entries of a numpy column
(`se3.Force(b[:6])`). -/
def Force.ofList (xs : RVec) : Force :=
  ⟨![xs.getD 0 0, xs.getD 1 0, xs.getD 2 0],
   ![xs.getD 3 0, xs.getD 4 0, xs.getD 5 0]⟩

/-- Action `M.act(f)` for a force: `(R lin, R ang + p × (R lin))`. -/
def SE3R.actForce (M : SE3R) (f : Force) : Force :=
  ⟨M.rotation.mulVec f.linear,
   M.rotation.mulVec f.angular + npCross M.translation (M.rotation.mulVec f.linear)⟩

/-- Motion-force dual cross product `v ×* f` (pinocchio `Inertia.vxiv`
composes it with the inertia action): `(ω × f_lin, ω × f_ang + v_lin × f_lin)`. -/
def crossStarForce (v : Motion) (f : Force) : Force :=
  ⟨npCross v.angular f.linear,
   npCross v.angular f.angular + npCross v.linear f.linear⟩

/-- Embedding of `errorInSE3(M, Mdes)` from `tasks.py`: `se3.log(Mdes.inverse()*M)`,
with the collaborator's log map passed in as `selog`. -/
def errorInSE3 (selog : SE3R → Motion) (M Mdes : SE3R) : Motion :=
  selog (SE3R.mul Mdes.inverse M)

/-- Claim C8: the pose error is the logarithmic map of `Mdes⁻¹ * M`, and for
any valid pose `M` (orthogonal rotation) the error of `M` against itself is
the zero motion, given the collaborator contract that the log of the identity
placement is zero. -/
theorem c8_errorInSE3_spec (selog : SE3R → Motion) (M Mdes : SE3R) :
    errorInSE3 selog M Mdes = selog (SE3R.mul Mdes.inverse M)
    ∧ (selog SE3R.identity = Motion.zero → isValidRotation M.rotation →
        errorInSE3 selog M M = Motion.zero) := by
  refine ⟨rfl, fun hlog horth => ?_⟩
  have hinv : SE3R.mul M.inverse M = SE3R.identity := by
    unfold SE3R.mul SE3R.inverse SE3R.identity
    exact congrArg₂ SE3R.mk horth (add_neg_cancel _)
  rw [errorInSE3, hinv, hlog]

/-- Witness for C8: a concrete log map (reading off the translation) that
vanishes on the identity, and the concrete valid pose with identity rotation
and translation `(1, 2, 3)`. -/
theorem c8_errorInSE3_spec_witness :
    errorInSE3 (fun N => ⟨N.translation, 0⟩) ⟨1, ![1, 2, 3]⟩ ⟨1, ![1, 2, 3]⟩
      = Motion.zero :=
  (c8_errorInSE3_spec (fun N => ⟨N.translation, 0⟩) ⟨1, ![1, 2, 3]⟩
      ⟨1, ![1, 2, 3]⟩).2
    (by simp [SE3R.identity, Motion.zero])
    (by simp [isValidRotation, Matrix.transpose_one])

/-! ## Task base state and list bookkeeping lemmas -/

/-- The mutable state shared by every task (`Task.__init__` plus the
per-task mask and diagonal gain matrix).  The diagnostic `name` string and
the robot handle are not part of any claim and are left out; the gain
matrix is represented by its diagonal (it is `np.eye(nv)` at construction
and `np.diag(gain_vector)` after `setGain`). -/
structure TaskState where
  kp : ℝ
  kv : ℝ
  expDecay : Bool
  adaptGain : Bool
  kmin : ℝ
  kmax : ℝ
  beta : ℝ
  mask : List Bool
  gainVec : RVec

/-- The state `Task.__init__` produces, with an all-true mask of the given
length and an identity gain matrix of size `nv`. -/
def taskInit (maskLen nv : ℕ) : TaskState :=
  ⟨80, 2 * Real.sqrt 80, false, false, 1, 10, 5,
   List.replicate maskLen true, List.replicate nv 1⟩

/-- The `dim` property of the tasks: `self._mask.sum()`. -/
def taskDim (st : TaskState) : ℕ := countTrue st.mask

theorem applyMask_nil {α : Type} (mask : List Bool) :
    applyMask mask ([] : List α) = [] := by
  cases mask <;> rfl

theorem applyMask_cons {α : Type} (b : Bool) (bs : List Bool) (x : α)
    (xs : List α) :
    applyMask (b :: bs) (x :: xs)
      = if b then x :: applyMask bs xs else applyMask bs xs := by
  cases b <;> simp [applyMask]

theorem applyMask_replicate_true {α : Type} :
    ∀ (n : ℕ) (xs : List α),
      applyMask (List.replicate n true) xs = xs.take n := by
  intro n
  induction n with
  | zero => intro xs; cases xs <;> rfl
  | succ m ih =>
    intro xs
    cases xs with
    | nil => rfl
    | cons x xs' => simp [List.replicate, applyMask_cons, ih]

theorem mem_of_mem_applyMask {α : Type} :
    ∀ (mask : List Bool) (xs : List α) (a : α),
      a ∈ applyMask mask xs → a ∈ xs := by
  intro mask
  induction mask with
  | nil => simp [applyMask]
  | cons b bs ih =>
    intro xs a h
    cases xs with
    | nil => simp [applyMask] at h
    | cons x xs' =>
      rw [applyMask_cons] at h
      by_cases hb : b = true
      · subst hb
        simp only [if_true] at h
        rcases List.mem_cons.mp h with h1 | h2
        · exact h1 ▸ List.mem_cons_self x xs'
        · exact List.mem_cons_of_mem x (ih xs' a h2)
      · rw [Bool.not_eq_true] at hb
        subst hb
        simp only [Bool.false_eq_true, if_false] at h
        exact List.mem_cons_of_mem x (ih xs' a h)

theorem length_applyMask {α : Type} :
    ∀ (mask : List Bool) (xs : List α), mask.length ≤ xs.length →
      (applyMask mask xs).length = countTrue mask := by
  intro mask
  induction mask with
  | nil => intro xs _; simp [applyMask, countTrue]
  | cons b bs ih =>
    intro xs hlen
    cases xs with
    | nil => simp at hlen
    | cons x xs' =>
      simp only [List.length_cons, Nat.succ_le_succ_iff] at hlen
      rw [applyMask_cons]
      cases b <;> simp [countTrue, List.count_cons, ih xs' hlen, Nat.add_comm]

theorem rowTimesDiag_ones :
    ∀ (r : RVec) (n : ℕ), r.length ≤ n →
      rowTimesDiag r (List.replicate n 1) = r := by
  intro r
  induction r with
  | nil => intro n _; cases n <;> rfl
  | cons a as ih =>
    intro n hlen
    cases n with
    | zero => simp at hlen
    | succ m =>
      simp only [List.length_cons, Nat.succ_le_succ_iff] at hlen
      simp [rowTimesDiag, List.replicate] at ih ⊢
      exact ih m hlen

theorem vadd_vneg_eq_vsub :
    ∀ (x y : RVec), vadd (vneg x) y = vsub y x := by
  intro x
  induction x with
  | nil => intro y; cases y <;> rfl
  | cons a as ih =>
    intro y
    cases y with
    | nil => rfl
    | cons b bs =>
      have h := ih bs
      simp only [vadd, vneg, vsub] at h ⊢
      simp [h, neg_add_eq_sub]

/-! ## SE3 (frame pose) task -/

/-- The per-tick snapshot of the dynamics-engine collaborator an `SE3Task`
queries: the tracked frame's placement, spatial velocity, bias acceleration,
and Jacobian (six rows over `nv` generalized-velocity columns, in the local
convention that `frameJacobian(q, frame_id, False)` returns). -/
structure SE3Robot (Q : Type) where
  nv : ℕ
  framePosition : SE3R
  frameVelocity : Motion
  frameAcceleration : Motion
  frameJacobian : Q → Fin 6 → RVec

/-- Product `R * x` for the leading three entries of a numpy column. -/
def matVec3List (R : Matrix (Fin 3) (Fin 3) ℝ) (xs : RVec) : RVec :=
  [R 0 0 * xs.getD 0 0 + R 0 1 * xs.getD 1 0 + R 0 2 * xs.getD 2 0,
   R 1 0 * xs.getD 0 0 + R 1 1 * xs.getD 1 0 + R 1 2 * xs.getD 2 0,
   R 2 0 * xs.getD 0 0 + R 2 1 * xs.getD 1 0 + R 2 2 * xs.getD 2 0]

/-- Update `a[:3] = R*a[:3]; a[3:] = R*a[3:]` on a 6-entry column. -/
def rotateHalves (R : Matrix (Fin 3) (Fin 3) ℝ) (xs : RVec) : RVec :=
  matVec3List R (xs.take 3) ++ matVec3List R (xs.drop 3)

/-- Update `J[:3,:] = R*J[:3,:]; J[3:,:] = R*J[3:,:]` on a six-row Jacobian. -/
def rotRows6 (R : Matrix (Fin 3) (Fin 3) ℝ) (J : Fin 6 → RVec) :
    Fin 6 → RVec := fun i =>
  if h : (i : ℕ) < 3 then
    vadd (smulV (R ⟨i, h⟩ 0) (J 0))
      (vadd (smulV (R ⟨i, h⟩ 1) (J 1)) (smulV (R ⟨i, h⟩ 2) (J 2)))
  else
    vadd (smulV (R ⟨(i : ℕ) - 3, by omega⟩ 0) (J 3))
      (vadd (smulV (R ⟨(i : ℕ) - 3, by omega⟩ 1) (J 4))
        (smulV (R ⟨(i : ℕ) - 3, by omega⟩ 2) (J 5)))

/-- Embedding of `SE3Task.dyn_value(t, q, v, local_frame)` from `tasks.py`.  The stored
`_gMl` keeps its zero translation and receives the current frame rotation;
the commented-out gain-recomputation block of the source is (faithfully)
absent.  Returns `(J[mask,:]*gain, drift.vector[mask], a_des[mask])`. -/
def se3TaskDynValue {Q : Type} (rb : SE3Robot Q) (selog : SE3R → Motion)
    (refTraj : ℝ → SE3R × Motion × Motion) (st : TaskState)
    (t : ℝ) (q : Q) (localFrame : Bool) : RMat × RVec × RVec :=
  let oMi := rb.framePosition
  let v_frame := rb.frameVelocity
  let ref := refTraj t
  let gMl : SE3R := ⟨oMi.rotation, 0⟩
  let p_error := errorInSE3 selog oMi ref.1
  let v_error := Motion.sub v_frame (gMl.actInvMotion ref.2.1)
  let fa := rb.frameAcceleration
  let drift : Motion :=
    ⟨fa.linear + npCross v_frame.angular v_frame.linear, fa.angular⟩
  let a_des : RVec :=
    vsub (gMl.actInvMotion ref.2.2).vector
      (vadd (smulV st.kp p_error.vector) (smulV st.kv v_error.vector))
  let J : Fin 6 → RVec := rb.frameJacobian q
  let driftOut := if localFrame then drift.vector
    else (gMl.actMotion drift).vector
  let aDesOut := if localFrame then a_des else rotateHalves gMl.rotation a_des
  let Jrows := if localFrame then List.ofFn J
    else List.ofFn (rotRows6 gMl.rotation J)
  ((applyMask st.mask Jrows).map (fun r => rowTimesDiag r st.gainVec),
   applyMask st.mask driftOut,
   applyMask st.mask aDesOut)

/-- Embedding of `SE3Task.jacobian(q)` from `tasks.py`: the masked frame Jacobian,
without the gain matrix. -/
def se3TaskJacobian {Q : Type} (rb : SE3Robot Q) (st : TaskState) (q : Q) :
    RMat :=
  applyMask st.mask (List.ofFn (rb.frameJacobian q))

/-! ## Center-of-mass task -/

/-- The collaborator surface of `CoMTask`: `robot.com(q, v, 0*v)` returning
position, velocity and (Coriolis) acceleration of the center of mass, and
the CoM Jacobian `robot.Jcom(q)` (three rows over `nv` columns). -/
structure CoMRobot (Q : Type) where
  nv : ℕ
  com : Q → RVec → RVec → RVec × RVec × RVec
  Jcom : Q → RMat

/-- The derivative gain `CoMTask.dyn_value` uses: recomputed from the
current `kp` by the decay law when `expDecay` is set (before any adaptive
update of `kp`), the stored `kv` otherwise. -/
def comEffectiveKv (st : TaskState) : ℝ :=
  if st.expDecay then exponentialDecay st.kp else st.kv

/-- The proportional gain `CoMTask.dyn_value` uses: recomputed from this
call's position error by the adaptive law when `adaptGain` is set, the
stored `kp` otherwise. -/
def comEffectiveKp (st : TaskState) (p_error : RVec) : ℝ :=
  if st.adaptGain then adaptativeGain p_error st.kmin st.kmax st.beta
  else st.kp

/-- Embedding of `CoMTask.dyn_value(t, q, v)` from `tasks.py`. -/
def comTaskDynValue {Q : Type} (rb : CoMRobot Q)
    (refTraj : ℝ → RVec × RVec × RVec) (st : TaskState)
    (t : ℝ) (q : Q) (v : RVec) : RMat × RVec × RVec :=
  let pva := rb.com q v (smulV 0 v)
  let ref := refTraj t
  let p_error := vsub pva.1 ref.1
  let v_error := vsub pva.2.1 ref.2.1
  let drift := pva.2.2
  let kv := comEffectiveKv st
  let kp := comEffectiveKp st p_error
  let a_des :=
    vadd (vneg (vadd (smulV kp p_error) (smulV kv v_error))) ref.2.2
  let J := (rb.Jcom q).map (fun r => rowTimesDiag r st.gainVec)
  (applyMask st.mask J, applyMask st.mask drift, applyMask st.mask a_des)

/-- Embedding of `CoMTask.jacobian(q)` from `tasks.py`: the masked CoM Jacobian, without
the gain matrix. -/
def comTaskJacobian {Q : Type} (rb : CoMRobot Q) (st : TaskState) (q : Q) :
    RMat :=
  applyMask st.mask (rb.Jcom q)

/-- Embedding of `CoMTask.__init__`: asserts `ref_trajectory.dim == 3` before any task
state is created; on success the state is the base-task state with an
all-true length-3 mask and the identity gain matrix. -/
def comTaskInit (trajDim nv : ℕ) : Option TaskState :=
  if trajDim = 3 then some (taskInit 3 nv) else none

/-- Claim C4 (amended): `CoMTask.dyn_value` recomputes its gains every call
— the derivative gain from the current `kp` by the decay law (before the
adaptive update), the proportional gain from this very call's position error
by the adaptive law — so its output equals the output of a call with both
modes off and the gains replaced by the freshly computed ones; but
`SE3Task.dyn_value` performs no recomputation at all (the source comments
it out): its output is entirely independent of the `expDecay` and
`adaptGain` flags and always uses the stored `kp`, `kv`. -/
theorem c4_gain_recompute_amended {Q : Type} (rbC : CoMRobot Q)
    (trajC : ℝ → RVec × RVec × RVec) (rbS : SE3Robot Q)
    (selog : SE3R → Motion) (trajS : ℝ → SE3R × Motion × Motion)
    (st : TaskState) (t : ℝ) (q : Q) (v : RVec) (lf b1 b2 : Bool) :
    comTaskDynValue rbC trajC st t q v
      = comTaskDynValue rbC trajC
          { st with expDecay := false, adaptGain := false,
                    kv := comEffectiveKv st,
                    kp := comEffectiveKp st
                      (vsub (rbC.com q v (smulV 0 v)).1 (trajC t).1) } t q v
    ∧ se3TaskDynValue rbS selog trajS
        { st with expDecay := b1, adaptGain := b2 } t q lf
      = se3TaskDynValue rbS selog trajS st t q lf := by
  constructor
  · simp [comTaskDynValue, comEffectiveKv, comEffectiveKp]
  · rfl

/-- Counterexample to claim C4 as stated: a concrete `SE3Task` with
exponential decay enabled, `kp = 0` and a stale `kv = 1`.  Were `kv`
recomputed from the current `kp` each call, the output would match the one
obtained with `kv = exponentialDecay 0`; it does not. -/
theorem c4_counterexample :
    (se3TaskDynValue
        (⟨1, SE3R.identity, ⟨fun _ => 1, 0⟩, Motion.zero, fun _ _ => [0]⟩ :
          SE3Robot Unit)
        (fun _ => Motion.zero)
        (fun _ => (SE3R.identity, Motion.zero, Motion.zero))
        ⟨0, 1, true, false, 1, 10, 5, List.replicate 6 true,
          List.replicate 1 1⟩ 0 () true).2.2
    ≠ (se3TaskDynValue
        (⟨1, SE3R.identity, ⟨fun _ => 1, 0⟩, Motion.zero, fun _ _ => [0]⟩ :
          SE3Robot Unit)
        (fun _ => Motion.zero)
        (fun _ => (SE3R.identity, Motion.zero, Motion.zero))
        ⟨0, exponentialDecay 0, true, false, 1, 10, 5, List.replicate 6 true,
          List.replicate 1 1⟩ 0 () true).2.2 := by
  have hd : exponentialDecay 0 = 0 := by
    rw [exponentialDecay, Real.sqrt_zero, mul_zero]
  simp only [se3TaskDynValue, hd, SE3R.identity, Motion.zero, errorInSE3,
    SE3R.actInvMotion, SE3R.mul, SE3R.inverse, Motion.sub, Motion.vector,
    applyMask_replicate_true]
  intro h
  simp [npCross, vsub, vadd, smulV, Matrix.transpose_one, Matrix.one_mulVec] at h

theorem map_self_of_mem {α : Type} (l : List α) (f : α → α)
    (h : ∀ a ∈ l, f a = a) : l.map f = l := by
  induction l with
  | nil => rfl
  | cons a as ih =>
    simp only [List.map_cons, h a (List.mem_cons_self a as)]
    rw [ih (fun x hx => h x (List.mem_cons_of_mem a hx))]

/-- Claim C5 (amended): `jacobian(q)` agrees with the `J` component of
`dyn_value` at the same configuration whenever the per-DOF gain matrix is
the identity (its value at construction); with a non-identity gain matrix
`dyn_value` additionally right-multiplies by the gain matrix and the two
differ (see the counterexample). -/
theorem c5_jacobian_consistency_amended {Q : Type} (rbS : SE3Robot Q)
    (selog : SE3R → Motion) (trajS : ℝ → SE3R × Motion × Motion)
    (rbC : CoMRobot Q) (trajC : ℝ → RVec × RVec × RVec)
    (st : TaskState) (t : ℝ) (q : Q) (v : RVec) :
    (st.gainVec = List.replicate rbS.nv 1 →
      (∀ i, (rbS.frameJacobian q i).length = rbS.nv) →
      (se3TaskDynValue rbS selog trajS st t q true).1
        = se3TaskJacobian rbS st q)
    ∧ (st.gainVec = List.replicate rbC.nv 1 →
      (∀ r ∈ rbC.Jcom q, r.length = rbC.nv) →
      (comTaskDynValue rbC trajC st t q v).1 = comTaskJacobian rbC st q) := by
  constructor
  · intro hg hrow
    simp only [se3TaskDynValue, se3TaskJacobian, if_true]
    apply map_self_of_mem
    intro r hr
    rcases (List.mem_ofFn _ _).mp (mem_of_mem_applyMask _ _ _ hr) with ⟨i, hi⟩
    rw [hg]
    exact rowTimesDiag_ones r rbS.nv (le_of_eq (hi ▸ hrow i))
  · intro hg hrow
    simp only [comTaskDynValue, comTaskJacobian]
    congr 1
    apply map_self_of_mem
    intro r hr
    rw [hg]
    exact rowTimesDiag_ones r rbC.nv (le_of_eq (hrow r hr))

/-- Witness for C5 on a one-DOF robot with identity gain: both the frame
task and the CoM task. -/
theorem c5_jacobian_consistency_amended_witness :
    (se3TaskDynValue
        (⟨1, SE3R.identity, Motion.zero, Motion.zero, fun _ _ => [0]⟩ :
          SE3Robot Unit)
        (fun _ => Motion.zero)
        (fun _ => (SE3R.identity, Motion.zero, Motion.zero))
        ⟨80, 1, false, false, 1, 10, 5, List.replicate 6 true,
          List.replicate 1 1⟩ 0 () true).1
      = se3TaskJacobian
          (⟨1, SE3R.identity, Motion.zero, Motion.zero, fun _ _ => [0]⟩ :
            SE3Robot Unit)
          ⟨80, 1, false, false, 1, 10, 5, List.replicate 6 true,
            List.replicate 1 1⟩ ()
    ∧ (comTaskDynValue
        (⟨1, fun _ _ _ => ([0, 0, 0], [0, 0, 0], [0, 0, 0]),
          fun _ => [[0], [0], [0]]⟩ : CoMRobot Unit)
        (fun _ => ([0, 0, 0], [0, 0, 0], [0, 0, 0]))
        ⟨80, 1, false, false, 1, 10, 5, List.replicate 3 true,
          List.replicate 1 1⟩ 0 () [0]).1
      = comTaskJacobian
          (⟨1, fun _ _ _ => ([0, 0, 0], [0, 0, 0], [0, 0, 0]),
            fun _ => [[0], [0], [0]]⟩ : CoMRobot Unit)
          ⟨80, 1, false, false, 1, 10, 5, List.replicate 3 true,
            List.replicate 1 1⟩ () :=
  ⟨(c5_jacobian_consistency_amended _ _ _
      (⟨1, fun _ _ _ => ([0, 0, 0], [0, 0, 0], [0, 0, 0]),
        fun _ => [[0], [0], [0]]⟩ : CoMRobot Unit)
      (fun _ => ([0, 0, 0], [0, 0, 0], [0, 0, 0])) _ 0 () [0]).1
      rfl (fun i => rfl),
   (c5_jacobian_consistency_amended
      (⟨1, SE3R.identity, Motion.zero, Motion.zero, fun _ _ => [0]⟩ :
        SE3Robot Unit)
      (fun _ => Motion.zero)
      (fun _ => (SE3R.identity, Motion.zero, Motion.zero)) _ _ _ 0 () [0]).2
      rfl (by simp)⟩

/-- Counterexample to claim C5 as stated: with the same mask and the same
(non-identity) gain configuration `gain_vector = [2]`, the `J` of
`CoMTask.dyn_value` is the gain-scaled Jacobian while `jacobian(q)` is the
bare one. -/
theorem c5_counterexample :
    (comTaskDynValue
        (⟨1, fun _ _ _ => ([0, 0, 0], [0, 0, 0], [0, 0, 0]),
          fun _ => [[1], [1], [1]]⟩ : CoMRobot Unit)
        (fun _ => ([0, 0, 0], [0, 0, 0], [0, 0, 0]))
        ⟨80, 1, false, false, 1, 10, 5, List.replicate 3 true, [2]⟩
        0 () [0]).1
    ≠ comTaskJacobian
        (⟨1, fun _ _ _ => ([0, 0, 0], [0, 0, 0], [0, 0, 0]),
          fun _ => [[1], [1], [1]]⟩ : CoMRobot Unit)
        ⟨80, 1, false, false, 1, 10, 5, List.replicate 3 true, [2]⟩ () := by
  intro h
  simp [comTaskDynValue, comTaskJacobian, applyMask_replicate_true,
    applyMask_cons, applyMask_nil, rowTimesDiag] at h

theorem vadd_replicate_zero6 :
    vadd (List.replicate 6 0) (List.replicate 6 0) = List.replicate 6 0 := by
  simp [vadd, List.replicate]

theorem foldl_vadd_zero6 (l : List ℕ) (g : ℕ → RVec)
    (h : ∀ s ∈ l, g s = List.replicate 6 0) :
    (l.map g).foldl vadd (List.replicate 6 0) = List.replicate 6 0 := by
  induction l with
  | nil => rfl
  | cons s ss ih =>
    simp only [List.map_cons, List.foldl_cons, h s (List.mem_cons_self s ss),
      vadd_replicate_zero6]
    exact ih (fun x hx => h x (List.mem_cons_of_mem s hx))

/-! ## Momentum task -/

/-- The collaborator surface of `MomentumTask`: the model/data fields of the
pinocchio robot it reads.  `com` is `robot.com(q)`; `oMi s` is
`data.oMi[s]`; `vSeg`/`aSeg` are `data.v[s]`/`data.a[s]`; `inertiaMat s` is
`model.inertias[s].matrix()` (also used for the inertia-times-motion
products); `ccrba` is `se3.ccrba(model, data, q, v)`; `hg` is the
`data.hg.np.A` column that `ccrba` leaves in the data object;
`nleNoGravity` is `se3.nle(model, data, q, v)` evaluated while
`_getBiais` has the model gravity zeroed out. -/
structure MomRobot (Q : Type) where
  nv : ℕ
  njoints : ℕ
  com : Q → Fin 3 → ℝ
  oMi : ℕ → SE3R
  vSeg : ℕ → Motion
  aSeg : ℕ → Motion
  inertiaMat : ℕ → Matrix (Fin 6) (Fin 6) ℝ
  ccrba : Q → RVec → RMat
  hg : Q → RVec → RVec
  nleNoGravity : Q → RVec → RVec

/-- Embedding of `MomentumTask._getBiais(q, v)`: the no-gravity bias force of the free
flyer transported to the CoM-aligned frame `cXi`. -/
def momGetBiais {Q : Type} (rb : MomRobot Q) (q : Q) (v : RVec) : RVec :=
  let p_com := rb.com q
  let oXi := rb.oMi 1
  let cXi : SE3R := ⟨oXi.rotation, oXi.translation - p_com⟩
  let b := rb.nleNoGravity q v
  let f_ff := Force.ofList b
  (cXi.actForce f_ff).vector

/-- Embedding of `MomentumTask._getContribution(com, s)`: segment `s`'s contribution to
the centroidal momentum and to its rate of change, expressed at the frame
`oMc` (rotation of joint 1, translation `oMi[1].translation - com`). -/
def momGetContribution {Q : Type} (rb : MomRobot Q) (com : Fin 3 → ℝ)
    (s : ℕ) : RVec × RVec :=
  let Y := rb.inertiaMat s
  let V := rb.vSeg s
  let iHi : Force := Force.ofVec6 (Y.mulVec V.vec6)
  let iHDi : Force :=
    Force.add (Force.ofVec6 (Y.mulVec (rb.aSeg s).vec6))
      (crossStarForce V (Force.ofVec6 (Y.mulVec V.vec6)))
  let oMc : SE3R := ⟨(rb.oMi 1).rotation, (rb.oMi 1).translation - com⟩
  let cMi := SE3R.mul oMc.inverse (rb.oMi s)
  ((cMi.actForce iHi).vector, (cMi.actForce iHDi).vector)

/-- Embedding of `MomentumTask._calculateHdot(q)`: sums the per-segment rate-of-change
contributions for the hardcoded segment indices `range(1, 26)`. -/
def momCalculateHdot {Q : Type} (rb : MomRobot Q) (q : Q) : RVec :=
  let p_com := rb.com q
  ((List.range' 1 25).map (fun s => (momGetContribution rb p_com s).2)).foldl
    vadd (List.replicate 6 0)

/-- Modelled from the spec: the per-segment summation of the rate of change
of centroidal momentum "across all rigid bodies" of the model — segments
`1` to `njoints - 1` — which `tasks.py` does not implement (its loop is the
fixed `range(1, 26)` of `_calculateHdot`). -/
def momCalculateHdotAllSegments {Q : Type} (rb : MomRobot Q) (q : Q) : RVec :=
  ((List.range' 1 (rb.njoints - 1)).map
      (fun s => (momGetContribution rb (rb.com q) s).2)).foldl
    vadd (List.replicate 6 0)

/-- Embedding of `MomentumTask.dyn_value(t, q, v)` from `tasks.py`.  Note the returned
third component is `h_des = -kp*p_error` (line 478), not the `dh_des`
computed and discarded on the line above it. -/
def momentumTaskDynValue {Q : Type} (rb : MomRobot Q)
    (refTraj : ℝ → RVec × RVec × RVec) (st : TaskState)
    (t : ℝ) (q : Q) (v : RVec) : RMat × RVec × RVec :=
  let ref := refTraj t
  let JMom := rb.ccrba q v
  let b := momGetBiais rb q v
  let hg_act := rb.hg q v
  let dhg_act := momCalculateHdot rb q
  let drift := applyMask st.mask b
  let p_error := vsub (applyMask st.mask hg_act) (applyMask st.mask ref.1)
  let v_error := vsub (applyMask st.mask dhg_act) (applyMask st.mask ref.2.1)
  let _dh_des := vneg (vadd (smulV st.kp p_error) (smulV st.kv v_error))
  let h_des := vneg (smulV st.kp p_error)
  let jac := (applyMask st.mask JMom).map (fun r => rowTimesDiag r st.gainVec)
  (jac, drift, h_des)

/-- The feedback law of the spec (section 4.3, step (e)):
`a_des = feedforward(reference acceleration) - (kp*error + kv*derror)`. -/
def pdLaw (aff e de : RVec) (kp kv : ℝ) : RVec :=
  vsub aff (vadd (smulV kp e) (smulV kv de))

/-- Claim C1 (amended): the frame-pose task (in its default local frame)
and the CoM task return `a_des` equal to the spec's feedback law applied to
the feedforward reference acceleration and this call's position/velocity
errors in the task's native space (with the gains the call effectively
uses); the momentum task instead returns `-kp*p_error` — no feedforward
and no derivative term. -/
theorem c1_pd_law_amended {Q : Type} (rbS : SE3Robot Q)
    (selog : SE3R → Motion) (trajS : ℝ → SE3R × Motion × Motion)
    (rbC : CoMRobot Q) (trajC : ℝ → RVec × RVec × RVec)
    (rbM : MomRobot Q) (trajM : ℝ → RVec × RVec × RVec)
    (st : TaskState) (t : ℝ) (q : Q) (v : RVec) :
    (se3TaskDynValue rbS selog trajS st t q true).2.2
      = applyMask st.mask
          (pdLaw
            (SE3R.actInvMotion ⟨rbS.framePosition.rotation, 0⟩
              (trajS t).2.2).vector
            (errorInSE3 selog rbS.framePosition (trajS t).1).vector
            (Motion.sub rbS.frameVelocity
              (SE3R.actInvMotion ⟨rbS.framePosition.rotation, 0⟩
                (trajS t).2.1)).vector
            st.kp st.kv)
    ∧ (comTaskDynValue rbC trajC st t q v).2.2
      = applyMask st.mask
          (pdLaw (trajC t).2.2
            (vsub (rbC.com q v (smulV 0 v)).1 (trajC t).1)
            (vsub (rbC.com q v (smulV 0 v)).2.1 (trajC t).2.1)
            (comEffectiveKp st (vsub (rbC.com q v (smulV 0 v)).1 (trajC t).1))
            (comEffectiveKv st))
    ∧ (momentumTaskDynValue rbM trajM st t q v).2.2
      = vneg (smulV st.kp
          (vsub (applyMask st.mask (rbM.hg q v))
            (applyMask st.mask (trajM t).1))) := by
  refine ⟨rfl, ?_, rfl⟩
  simp only [comTaskDynValue, pdLaw]
  rw [vadd_vneg_eq_vsub]

/-- Counterexample to claim C1 as stated: a concrete `MomentumTask` call
whose returned `a_des` differs from the spec's feedback law evaluated on
that call's feedforward reference acceleration and errors. -/
theorem c1_counterexample :
    (momentumTaskDynValue
        (⟨1, 26, fun _ => 0, fun _ => SE3R.identity, fun _ => Motion.zero,
          fun _ => Motion.zero, fun _ => 0, fun _ _ => List.replicate 6 [0],
          fun _ _ => List.replicate 6 0, fun _ _ => List.replicate 6 0⟩ :
          MomRobot Unit)
        (fun _ => (List.replicate 6 0, List.replicate 6 1,
          List.replicate 6 0))
        ⟨1, 1, false, false, 1, 10, 5, List.replicate 6 true,
          List.replicate 1 1⟩ 0 () [0]).2.2
    ≠ applyMask (List.replicate 6 true)
        (pdLaw (List.replicate 6 0)
          (vsub (List.replicate 6 0) (List.replicate 6 0))
          (vsub
            (momCalculateHdot
              (⟨1, 26, fun _ => 0, fun _ => SE3R.identity,
                fun _ => Motion.zero, fun _ => Motion.zero, fun _ => 0,
                fun _ _ => List.replicate 6 [0],
                fun _ _ => List.replicate 6 0,
                fun _ _ => List.replicate 6 0⟩ : MomRobot Unit) ())
            (List.replicate 6 1))
          1 1) := by
  have hzero : ∀ s : ℕ,
      (momGetContribution
        (⟨1, 26, fun _ => 0, fun _ => SE3R.identity, fun _ => Motion.zero,
          fun _ => Motion.zero, fun _ => 0, fun _ _ => List.replicate 6 [0],
          fun _ _ => List.replicate 6 0, fun _ _ => List.replicate 6 0⟩ :
          MomRobot Unit) 0 s).2 = List.replicate 6 0 := by
    intro s
    simp [momGetContribution, SE3R.mul, SE3R.inverse, SE3R.actForce,
      SE3R.identity, Force.ofVec6, Force.add, crossStarForce, npCross,
      Motion.zero, Motion.vec6, Force.vector, Matrix.zero_mulVec,
      Matrix.one_mulVec, Matrix.transpose_one, List.replicate]
  have hdot :
      momCalculateHdot
        (⟨1, 26, fun _ => 0, fun _ => SE3R.identity, fun _ => Motion.zero,
          fun _ => Motion.zero, fun _ => 0, fun _ _ => List.replicate 6 [0],
          fun _ _ => List.replicate 6 0, fun _ _ => List.replicate 6 0⟩ :
          MomRobot Unit) () = List.replicate 6 0 := by
    rw [momCalculateHdot]
    exact foldl_vadd_zero6 _ _ (fun s _ => hzero s)
  intro h
  rw [hdot] at h
  simp [momentumTaskDynValue, pdLaw, applyMask_replicate_true,
    applyMask_cons, applyMask_nil, hdot, vsub, vadd, vneg, smulV,
    List.replicate] at h

/-- Claim C9 (amended): the hardcoded per-segment summation of
`_calculateHdot` (segments `1` to `25`) coincides with the sum over all
rigid bodies of the model exactly for models with `njoints = 26`. -/
theorem c9_hdot_all_bodies_amended {Q : Type} (rb : MomRobot Q) (q : Q)
    (h : rb.njoints = 26) :
    momCalculateHdot rb q = momCalculateHdotAllSegments rb q := by
  rw [momCalculateHdot, momCalculateHdotAllSegments, h]

/-- Witness for C9 on a concrete 26-joint model. -/
theorem c9_hdot_all_bodies_amended_witness :
    momCalculateHdot
      (⟨1, 26, fun _ => 0, fun _ => SE3R.identity, fun _ => Motion.zero,
        fun _ => Motion.zero, fun _ => 0, fun _ _ => List.replicate 6 [0],
        fun _ _ => List.replicate 6 0, fun _ _ => List.replicate 6 0⟩ :
        MomRobot Unit) ()
    = momCalculateHdotAllSegments
      (⟨1, 26, fun _ => 0, fun _ => SE3R.identity, fun _ => Motion.zero,
        fun _ => Motion.zero, fun _ => 0, fun _ _ => List.replicate 6 [0],
        fun _ _ => List.replicate 6 0, fun _ _ => List.replicate 6 0⟩ :
        MomRobot Unit) () :=
  c9_hdot_all_bodies_amended _ () rfl

/-- Counterexample to claim C9 as stated: on a model with 27 joints
(universe plus 26 moving bodies) whose 26th segment has a non-zero
rate-of-change contribution, the hardcoded `range(1, 26)` summation of
`_calculateHdot` misses that segment and differs from the sum over all
rigid bodies. -/
theorem c9_counterexample :
    momCalculateHdot
      (⟨1, 27, fun _ => 0, fun _ => SE3R.identity, fun _ => Motion.zero,
        fun s => if s = 26 then ⟨![1, 0, 0], 0⟩ else Motion.zero,
        fun _ => 1, fun _ _ => List.replicate 6 [0],
        fun _ _ => List.replicate 6 0, fun _ _ => List.replicate 6 0⟩ :
        MomRobot Unit) ()
    ≠ momCalculateHdotAllSegments
      (⟨1, 27, fun _ => 0, fun _ => SE3R.identity, fun _ => Motion.zero,
        fun s => if s = 26 then ⟨![1, 0, 0], 0⟩ else Motion.zero,
        fun _ => 1, fun _ _ => List.replicate 6 [0],
        fun _ _ => List.replicate 6 0, fun _ _ => List.replicate 6 0⟩ :
        MomRobot Unit) () := by
  have hzero : ∀ s : ℕ, s ≠ 26 →
      (momGetContribution
        (⟨1, 27, fun _ => 0, fun _ => SE3R.identity, fun _ => Motion.zero,
          fun s => if s = 26 then ⟨![1, 0, 0], 0⟩ else Motion.zero,
          fun _ => 1, fun _ _ => List.replicate 6 [0],
          fun _ _ => List.replicate 6 0, fun _ _ => List.replicate 6 0⟩ :
          MomRobot Unit) 0 s).2 = List.replicate 6 0 := by
    intro s hs
    simp [momGetContribution, SE3R.mul, SE3R.inverse, SE3R.actForce,
      SE3R.identity, Force.ofVec6, Force.add, crossStarForce, npCross,
      Motion.zero, Motion.vec6, Force.vector, Matrix.one_mulVec,
      Matrix.transpose_one, hs, List.replicate]
  have h26 :
      (momGetContribution
        (⟨1, 27, fun _ => 0, fun _ => SE3R.identity, fun _ => Motion.zero,
          fun s => if s = 26 then ⟨![1, 0, 0], 0⟩ else Motion.zero,
          fun _ => 1, fun _ _ => List.replicate 6 [0],
          fun _ _ => List.replicate 6 0, fun _ _ => List.replicate 6 0⟩ :
          MomRobot Unit) 0 26).2 = [1, 0, 0, 0, 0, 0] := by
    simp [momGetContribution, SE3R.mul, SE3R.inverse, SE3R.actForce,
      SE3R.identity, Force.ofVec6, Force.add, crossStarForce, npCross,
      Motion.zero, Motion.vec6, Force.vector, Matrix.one_mulVec,
      Matrix.transpose_one]
    exact ⟨fun h => absurd h (by decide), fun h => absurd h (by decide),
      fun h => absurd h (by decide)⟩
  have hhard :
      momCalculateHdot
        (⟨1, 27, fun _ => 0, fun _ => SE3R.identity, fun _ => Motion.zero,
          fun s => if s = 26 then ⟨![1, 0, 0], 0⟩ else Motion.zero,
          fun _ => 1, fun _ _ => List.replicate 6 [0],
          fun _ _ => List.replicate 6 0, fun _ _ => List.replicate 6 0⟩ :
          MomRobot Unit) () = List.replicate 6 0 := by
    rw [momCalculateHdot]
    refine foldl_vadd_zero6 _ _ (fun s hmem => hzero s ?_)
    have := List.mem_range'_1.mp hmem
    omega
  have hall :
      momCalculateHdotAllSegments
        (⟨1, 27, fun _ => 0, fun _ => SE3R.identity, fun _ => Motion.zero,
          fun s => if s = 26 then ⟨![1, 0, 0], 0⟩ else Motion.zero,
          fun _ => 1, fun _ _ => List.replicate 6 [0],
          fun _ _ => List.replicate 6 0, fun _ _ => List.replicate 6 0⟩ :
          MomRobot Unit) () = [1, 0, 0, 0, 0, 0] := by
    rw [momCalculateHdotAllSegments]
    have h26r : (27 : ℕ) - 1 = 25 + 1 := by norm_num
    rw [h26r, List.range'_1_concat, List.map_append, List.foldl_append]
    have hfirst :
        ((List.range' 1 25).map
          (fun s => (momGetContribution
            (⟨1, 27, fun _ => 0, fun _ => SE3R.identity,
              fun _ => Motion.zero,
              fun s => if s = 26 then ⟨![1, 0, 0], 0⟩ else Motion.zero,
              fun _ => 1, fun _ _ => List.replicate 6 [0],
              fun _ _ => List.replicate 6 0,
              fun _ _ => List.replicate 6 0⟩ : MomRobot Unit) 0 s).2)).foldl
          vadd (List.replicate 6 0) = List.replicate 6 0 := by
      refine foldl_vadd_zero6 _ _ (fun s hmem => hzero s ?_)
      have := List.mem_range'_1.mp hmem
      omega
    rw [hfirst]
    simp only [List.map_cons, List.map_nil, List.foldl_cons, List.foldl_nil]
    rw [h26]
    simp [vadd, List.replicate]
  rw [hhard, hall]
  intro h
  simp [List.replicate] at h

/-! ## Free-flyer task -/

/-- Row-list embedding of `np.matrix(np.eye(nv))` as a list of
rows. -/
def eyeRows (n : ℕ) : RMat :=
  (List.range n).map (fun i => (List.range n).map
    (fun j => if i = j then (1 : ℝ) else 0))

/-- Column `j` of a matrix stored as rows (`M[:, j]`). -/
def matCol (M : RMat) (j : ℕ) : RVec := M.map (fun r => r.getD j 0)

/-- Embedding of `FreeFlyerTask.dyn_value(t, q, v)` from `tasks.py`.  The reference
configuration matrix is indexed by the tick (`q_ref[:7, t]`), so time is a
natural-number column index here; `se3.utils.XYZQUATToSe3` is the external
converter `xyzquatToSe3`.  The stored Jacobian is `np.matrix(np.eye(nv))`,
and its boolean row-indexing by the length-6 mask selects among the first
six rows (legacy numpy semantics, matched by `applyMask`). -/
def freeFlyerDynValue (nv : ℕ) (xyzquatToSe3 : RVec → SE3R)
    (selog : SE3R → Motion) (refTraj : ℕ → RMat × RVec × RVec)
    (st : TaskState) (t : ℕ) (q v : RVec) : RMat × RVec × RVec :=
  let ref := refTraj t
  let M_ff := xyzquatToSe3 (q.take 7)
  let M_ff_des := xyzquatToSe3 ((matCol ref.1 t).take 7)
  let p_error := (errorInSE3 selog M_ff M_ff_des).vector
  let v_error := vsub (applyMask st.mask v) (applyMask st.mask ref.2.1)
  let a_des := vsub (applyMask st.mask ref.2.2)
    (vadd (smulV st.kp (applyMask st.mask p_error)) (smulV st.kv v_error))
  let drift := smulV 0 a_des
  (applyMask st.mask (eyeRows nv), drift, a_des)

theorem length_motion_vector (m : Motion) : m.vector.length = 6 := rfl

theorem length_eyeRows (n : ℕ) : (eyeRows n).length = n := by
  simp [eyeRows]

theorem length_vsub (a b : RVec) :
    (vsub a b).length = min a.length b.length := by
  simp [vsub]

theorem length_vadd (a b : RVec) :
    (vadd a b).length = min a.length b.length := by
  simp [vadd]

theorem length_smulV (c : ℝ) (a : RVec) : (smulV c a).length = a.length := by
  simp [smulV]

/-- Claim C2 (amended): for the free-flyer task, on any valid length-6 mask
(the all-false one included) the active dimension is the number of true
mask entries and each of the three outputs of `dyn_value` has exactly that
many rows — provided the collaborator vectors cover the six native
dimensions.  The gaze task, by contrast, ignores its mask entirely and
always returns a single row (see the counterexample). -/
theorem c2_masked_rows_amended (nv : ℕ) (xyzquatToSe3 : RVec → SE3R)
    (selog : SE3R → Motion) (refTraj : ℕ → RMat × RVec × RVec)
    (st : TaskState) (t : ℕ) (q v : RVec)
    (hm : st.mask.length = 6) (hv : 6 ≤ v.length)
    (hvr : 6 ≤ (refTraj t).2.1.length) (har : 6 ≤ (refTraj t).2.2.length)
    (hnv : 6 ≤ nv) :
    taskDim st = countTrue st.mask
    ∧ (freeFlyerDynValue nv xyzquatToSe3 selog refTraj st t q v).1.length
        = countTrue st.mask
    ∧ (freeFlyerDynValue nv xyzquatToSe3 selog refTraj st t q v).2.1.length
        = countTrue st.mask
    ∧ (freeFlyerDynValue nv xyzquatToSe3 selog refTraj st t q v).2.2.length
        = countTrue st.mask := by
  have hmv : (applyMask st.mask v).length = countTrue st.mask :=
    length_applyMask _ _ (hm ▸ hv)
  have hmvr : (applyMask st.mask (refTraj t).2.1).length
      = countTrue st.mask := length_applyMask _ _ (hm ▸ hvr)
  have hmar : (applyMask st.mask (refTraj t).2.2).length
      = countTrue st.mask := length_applyMask _ _ (hm ▸ har)
  have hmpe : ∀ m : Motion,
      (applyMask st.mask m.vector).length = countTrue st.mask := fun m =>
    length_applyMask _ _ (by rw [length_motion_vector, hm])
  have hJ : (applyMask st.mask (eyeRows nv)).length = countTrue st.mask :=
    length_applyMask _ _ (by rw [length_eyeRows, hm]; exact hnv)
  have hades :
      (freeFlyerDynValue nv xyzquatToSe3 selog refTraj st t q v).2.2.length
        = countTrue st.mask := by
    simp only [freeFlyerDynValue, length_vsub, length_vadd, length_smulV,
      hmv, hmvr, hmar, hmpe, min_self]
  refine ⟨rfl, hJ, ?_, hades⟩
  simpa only [freeFlyerDynValue, length_smulV] using hades

/-- Witness for C2: a six-DOF free flyer with the all-false mask returns
three empty (zero-row) outputs without failing. -/
theorem c2_masked_rows_amended_witness :
    taskDim ⟨80, 1, false, false, 1, 10, 5, List.replicate 6 false,
        List.replicate 6 1⟩
      = countTrue (List.replicate 6 false)
    ∧ (freeFlyerDynValue 6 (fun _ => SE3R.identity) (fun _ => Motion.zero)
        (fun _ => ([], List.replicate 6 0, List.replicate 6 0))
        ⟨80, 1, false, false, 1, 10, 5, List.replicate 6 false,
          List.replicate 6 1⟩ 0 (List.replicate 7 0)
        (List.replicate 6 0)).1.length
      = countTrue (List.replicate 6 false)
    ∧ (freeFlyerDynValue 6 (fun _ => SE3R.identity) (fun _ => Motion.zero)
        (fun _ => ([], List.replicate 6 0, List.replicate 6 0))
        ⟨80, 1, false, false, 1, 10, 5, List.replicate 6 false,
          List.replicate 6 1⟩ 0 (List.replicate 7 0)
        (List.replicate 6 0)).2.1.length
      = countTrue (List.replicate 6 false)
    ∧ (freeFlyerDynValue 6 (fun _ => SE3R.identity) (fun _ => Motion.zero)
        (fun _ => ([], List.replicate 6 0, List.replicate 6 0))
        ⟨80, 1, false, false, 1, 10, 5, List.replicate 6 false,
          List.replicate 6 1⟩ 0 (List.replicate 7 0)
        (List.replicate 6 0)).2.2.length
      = countTrue (List.replicate 6 false) :=
  c2_masked_rows_amended 6 (fun _ => SE3R.identity) (fun _ => Motion.zero)
    (fun _ => ([], List.replicate 6 0, List.replicate 6 0))
    ⟨80, 1, false, false, 1, 10, 5, List.replicate 6 false,
      List.replicate 6 1⟩ 0 (List.replicate 7 0) (List.replicate 6 0)
    (by simp) (by simp) (by simp) (by simp) (by simp)

/-! ## Gaze task -/

/-- The collaborator surface of `GazeSE3Task`. -/
structure GazeRobot (Q : Type) where
  nv : ℕ
  framePosition : Q → SE3R
  frameVelocity : Motion
  frameAcceleration : Motion
  frameJacobian : Q → Fin 6 → RVec

/-- Norm `np.linalg.norm([x, y, z])`. -/
def norm3 (v : Fin 3 → ℝ) : ℝ :=
  Real.sqrt (v 0 ^ 2 + v 1 ^ 2 + v 2 ^ 2)

/-- Embedding of `GazeSE3Task.vectorsMethod(t, q, v)` from `tasks.py`.  The external
`biomechanics.maths.rotation_matrix` is `rotationMatrixExt` and
`np.arctan2` is `arctangent2`; the trajectory sample is read but unused by
this formulation.  The returned Jacobian is the single row
`frameJacobian(q)[5,:]`, and drift and `a_des` are the scalars at index 5 —
the task's mask is never applied. -/
def gazeVectorsMethod {Q : Type} (rb : GazeRobot Q) (selog : SE3R → Motion)
    (rotationMatrixExt : (ℝ × ℝ × ℝ) → ℝ → Matrix (Fin 3) (Fin 3) ℝ)
    (arctangent2 : ℝ → ℝ → ℝ) (opPoint : Fin 3 → ℝ) (target : SE3R)
    (refTraj : ℝ → RVec × RVec × RVec) (st : TaskState)
    (t : ℝ) (q : Q) (v : RVec) : RMat × ℝ × ℝ :=
  let _ref := refTraj t
  let oMi := rb.framePosition q
  let oMp : SE3R :=
    ⟨oMi.rotation, oMi.translation + oMi.rotation.mulVec opPoint⟩
  let pMt := SE3R.mul oMp.inverse target
  let _vision := SE3R.mul oMp pMt
  let r := norm3 pMt.translation
  let tr := Matrix.trace pMt.rotation
  let x := (0 : ℝ)
  let y := oMp.rotation 0 2 - oMp.rotation 2 0
  let z := (0 : ℝ)
  let theta := arctangent2 r (tr - 1)
  let M_des : SE3R := ⟨rotationMatrixExt (x, y, z) theta, 0⟩
  let a_des := -st.kp
    * ((errorInSE3 selog (rb.framePosition q) M_des).vector.getD 5 0)
  let J : RMat := [rb.frameJacobian q 5]
  let v_frame := rb.frameVelocity
  let fa := rb.frameAcceleration
  let driftM : Motion :=
    ⟨fa.linear + npCross v_frame.angular v_frame.linear, fa.angular⟩
  let drift := driftM.vector.getD 5 0
  (J, drift, a_des)

/-- Embedding of `GazeSE3Task.dyn_value(t, q, v)` from `tasks.py`: delegates to
`vectorsMethod` (the `visualServoMethod` call is commented out). -/
def gazeDynValue {Q : Type} (rb : GazeRobot Q) (selog : SE3R → Motion)
    (rotationMatrixExt : (ℝ × ℝ × ℝ) → ℝ → Matrix (Fin 3) (Fin 3) ℝ)
    (arctangent2 : ℝ → ℝ → ℝ) (opPoint : Fin 3 → ℝ) (target : SE3R)
    (refTraj : ℝ → RVec × RVec × RVec) (st : TaskState)
    (t : ℝ) (q : Q) (v : RVec) : RMat × ℝ × ℝ :=
  gazeVectorsMethod rb selog rotationMatrixExt arctangent2 opPoint target
    refTraj st t q v

/-- Counterexample to claim C2 as stated: a concrete `GazeSE3Task` with the
all-false mask still returns a one-row Jacobian — its dynamic-value
operation never applies the mask, so the row count differs from the number
of true mask entries. -/
theorem c2_counterexample :
    ((gazeDynValue
        (⟨3, fun _ => SE3R.identity, Motion.zero, Motion.zero,
          fun _ _ => [0, 0, 0]⟩ : GazeRobot Unit)
        (fun _ => Motion.zero) (fun _ _ => 1) (fun _ _ => 0) 0
        SE3R.identity (fun _ => ([0, 0], [0, 0], [0, 0]))
        ⟨80, 1, false, false, 1, 10, 5, List.replicate 6 false,
          List.replicate 3 1⟩ 0 () []).1).length
    ≠ countTrue (List.replicate 6 false) := by
  simp [gazeDynValue, gazeVectorsMethod, countTrue]

/-! ## Mask setters and construction-time checks -/

/-- Embedding of `SE3Task.mask(mask)`: asserts `len(mask) == 6`. -/
def se3TaskSetMask (m : List Bool) : Option (List Bool) :=
  if m.length = 6 then some m else none

/-- Embedding of `CoMTask.mask(mask)`: asserts `len(mask) == 3`. -/
def comTaskSetMask (m : List Bool) : Option (List Bool) :=
  if m.length = 3 then some m else none

/-- Embedding of `JointPostureTask.mask(mask)`: asserts `len(mask) == robot.nv - 6`. -/
def jointPostureTaskSetMask (nv : ℕ) (m : List Bool) : Option (List Bool) :=
  if m.length = nv - 6 then some m else none

/-- Embedding of `PosturalTask.mask(mask)`: asserts `len(mask) == robot.nv`. -/
def posturalTaskSetMask (nv : ℕ) (m : List Bool) : Option (List Bool) :=
  if m.length = nv then some m else none

/-- Embedding of `FreeFlyerTask.mask(mask)`: asserts `len(mask) == 6`. -/
def freeFlyerTaskSetMask (m : List Bool) : Option (List Bool) :=
  if m.length = 6 then some m else none

/-- Embedding of `MomentumTask.mask(mask)`: asserts `len(mask) == 6`. -/
def momentumTaskSetMask (m : List Bool) : Option (List Bool) :=
  if m.length = 6 then some m else none

/-- Embedding of `FlyMomentumTask.mask(mask)`: asserts `len(mask) == 6`. -/
def flyMomentumTaskSetMask (m : List Bool) : Option (List Bool) :=
  if m.length = 6 then some m else none

/-- Embedding of `GazeSE3Task.mask(mask)`: asserts `len(mask) == 6`. -/
def gazeTaskSetMask (m : List Bool) : Option (List Bool) :=
  if m.length = 6 then some m else none

/-- Embedding of `AngularMomentumTask.mask(mask)`: asserts `len(mask) == 3`, although
the task's initial mask has length `robot.nv` and the spec gives momentum
tasks native dimension 6. -/
def angularMomentumTaskSetMask (m : List Bool) : Option (List Bool) :=
  if m.length = 3 then some m else none

theorem isSome_ite_some {α : Type} (c : Prop) [Decidable c] (a : α) :
    ((if c then some a else none).isSome = true) ↔ c := by
  by_cases h : c <;> simp [h]

/-- Claim C3 (amended): each mask setter succeeds exactly on bit sequences
of the length it asserts — 6 for the pose, free-flyer, momentum,
fly-momentum and gaze tasks, 3 for the CoM task, `nv - 6` for the reduced
posture task and `nv` for the full posture task — but the angular-momentum
task's setter checks length 3, not the native dimension 6 the spec assigns
to momentum tasks (and the kinetic-energy task exposes no setter at all). -/
theorem c3_set_mask_amended (m : List Bool) (nv : ℕ) :
    ((se3TaskSetMask m).isSome = true ↔ m.length = 6)
    ∧ ((comTaskSetMask m).isSome = true ↔ m.length = 3)
    ∧ ((jointPostureTaskSetMask nv m).isSome = true ↔ m.length = nv - 6)
    ∧ ((posturalTaskSetMask nv m).isSome = true ↔ m.length = nv)
    ∧ ((freeFlyerTaskSetMask m).isSome = true ↔ m.length = 6)
    ∧ ((momentumTaskSetMask m).isSome = true ↔ m.length = 6)
    ∧ ((flyMomentumTaskSetMask m).isSome = true ↔ m.length = 6)
    ∧ ((gazeTaskSetMask m).isSome = true ↔ m.length = 6)
    ∧ ((angularMomentumTaskSetMask m).isSome = true ↔ m.length = 3) :=
  ⟨isSome_ite_some _ _, isSome_ite_some _ _, isSome_ite_some _ _,
   isSome_ite_some _ _, isSome_ite_some _ _, isSome_ite_some _ _,
   isSome_ite_some _ _, isSome_ite_some _ _, isSome_ite_some _ _⟩

/-- Counterexample to claim C3 as stated: the angular-momentum task (a
momentum task, native dimension 6 per the spec) rejects a length-6 mask
and accepts a length-3 one. -/
theorem c3_counterexample :
    angularMomentumTaskSetMask (List.replicate 6 true) = none
    ∧ angularMomentumTaskSetMask (List.replicate 3 true)
        = some (List.replicate 3 true) :=
  ⟨rfl, rfl⟩

/-- Claim C10: constructing a CoM task succeeds exactly when the supplied
trajectory's dimension is 3 (the assertion fires before any task state
exists), and on success the state carries an all-true mask of length 3. -/
theorem c10_com_init (trajDim nv : ℕ) :
    ((comTaskInit trajDim nv).isSome = true ↔ trajDim = 3)
    ∧ comTaskInit 3 nv = some (taskInit 3 nv)
    ∧ (taskInit 3 nv).mask = List.replicate 3 true
    ∧ countTrue (taskInit 3 nv).mask = 3 := by
  refine ⟨?_, rfl, rfl, rfl⟩
  rw [comTaskInit]
  exact isSome_ite_some _ _

end

end HQP
